import Mathlib

/-!
Verification of `src/TicketsExtraction/extract.py`.

The Python module is shallowly embedded: JSON-like values are an inductive
`Json`; Python attribute errors / type errors raised by `dict.get`, iteration,
`in`, `str.join` and `+` are modelled with `Except String`.  Booleans and
floats never occur in the fields this script reads, so `Json` omits them.
-/

inductive Json where
  | null
  | str (s : String)
  | num (n : Int)
  | obj (fields : List (String × Json))
  | arr (elems : List Json)

mutual

def jeq : Json → Json → Bool
  | .null, .null => true
  | .str a, .str b => a == b
  | .num a, .num b => a == b
  | .obj a, .obj b => jeqFields a b
  | .arr a, .arr b => jeqList a b
  | _, _ => false

def jeqFields : List (String × Json) → List (String × Json) → Bool
  | [], [] => true
  | (k1, v1) :: r1, (k2, v2) :: r2 => k1 == k2 && jeq v1 v2 && jeqFields r1 r2
  | _, _ => false

def jeqList : List Json → List Json → Bool
  | [], [] => true
  | a :: as, b :: bs => jeq a b && jeqList as bs
  | _, _ => false

end

theorem jeq_sound : ∀ n : Nat,
    (∀ a b : Json, sizeOf a ≤ n → (jeq a b = true ↔ a = b)) ∧
    (∀ fs gs : List (String × Json), sizeOf fs ≤ n → (jeqFields fs gs = true ↔ fs = gs)) ∧
    (∀ as bs : List Json, sizeOf as ≤ n → (jeqList as bs = true ↔ as = bs)) := by
  intro n
  induction n with
  | zero =>
    refine ⟨fun a b h => ?_, fun fs gs h => ?_, fun as bs h => ?_⟩
    · cases a <;> simp_all
    · cases fs <;> simp_all
    · cases as <;> simp_all
  | succ n ih =>
    obtain ⟨ihj, ihf, ihl⟩ := ih
    refine ⟨fun a b h => ?_, fun fs gs h => ?_, fun as bs h => ?_⟩
    · cases a <;> cases b <;> simp [jeq]
      case obj.obj fs gs =>
        have hs : sizeOf fs ≤ n := by simp at h; omega
        exact ihf fs gs hs
      case arr.arr as bs =>
        have hs : sizeOf as ≤ n := by simp at h; omega
        exact ihl as bs hs
    · cases fs with
      | nil => cases gs <;> simp [jeqFields]
      | cons p r1 =>
        cases gs with
        | nil => simp [jeqFields]
        | cons q r2 =>
          obtain ⟨k1, v1⟩ := p
          obtain ⟨k2, v2⟩ := q
          have hv : sizeOf v1 ≤ n := by simp at h; omega
          have hr : sizeOf r1 ≤ n := by simp at h; omega
          simp [jeqFields, ihj v1 v2 hv, ihf r1 r2 hr, and_assoc]
    · cases as with
      | nil => cases bs <;> simp [jeqList]
      | cons a r1 =>
        cases bs with
        | nil => simp [jeqList]
        | cons b r2 =>
          have ha : sizeOf a ≤ n := by simp at h; omega
          have hr : sizeOf r1 ≤ n := by simp at h; omega
          simp [jeqList, ihj a b ha, ihl r1 r2 hr]

theorem jeq_iff (a b : Json) : jeq a b = true ↔ a = b :=
  (jeq_sound (sizeOf a)).1 a b (Nat.le_refl _)

instance : DecidableEq Json := fun a b =>
  if h : jeq a b = true then isTrue ((jeq_iff a b).1 h)
  else isFalse (fun he => h ((jeq_iff a b).2 he))

instance {ε α : Type} [DecidableEq ε] [DecidableEq α] : DecidableEq (Except ε α) := fun x y =>
  match x, y with
  | .ok a, .ok b =>
    if h : a = b then isTrue (by rw [h]) else isFalse (by intro he; injection he; contradiction)
  | .error a, .error b =>
    if h : a = b then isTrue (by rw [h]) else isFalse (by intro he; injection he; contradiction)
  | .ok _, .error _ => isFalse (by intro he; injection he)
  | .error _, .ok _ => isFalse (by intro he; injection he)

/-- Python truthiness of a value (`if not x: ...`). -/
def truthy : Json → Bool
  | .null => false
  | .str s => !(s == "")
  | .num n => !(n == 0)
  | .obj fs => !fs.isEmpty
  | .arr es => !es.isEmpty

/-- Python `d.get(k, default)`: on a dict returns the stored value (even when it
is `None`) or the default when the key is absent; on any non-dict value the
attribute lookup raises `AttributeError`. -/
def pyGet (j : Json) (k : String) (default : Json) : Except String Json :=
  match j with
  | .obj fs => .ok ((fs.lookup k).getD default)
  | _ => .error "AttributeError"

example : pyGet (Json.obj [("a", Json.num 3)]) "a" Json.null = .ok (Json.num 3) := by decide
example : pyGet Json.null "a" Json.null = .error "AttributeError" := by decide

/-- `chPre n h`: the character list `n` starts the character list `h`;
used for Python's substring test (`"k" in somestring`). -/
def chPre : List Char → List Char → Bool
  | [], _ => true
  | _ :: _, [] => false
  | a :: as, b :: bs => a == b && chPre as bs

/-- `chSub n h` holds when `n` occurs as a contiguous run inside `h`. -/
def chSub (n : List Char) : List Char → Bool
  | [] => chPre n []
  | b :: bs => chPre n (b :: bs) || chSub n bs

mutual

/-- Python's `repr` of a value: the rendering used for values nested inside
containers (strings get quoted).  The script only ever interpolates strings,
`None` and numbers into f-strings, but the container cases are rendered too,
following Python's `repr`. -/
def pyRepr : Json → String
  | .null => "None"
  | .str s => "\x27" ++ s ++ "\x27"
  | .num n => toString n
  | .obj fs => "\x7b" ++ ", ".intercalate (pyReprFields fs) ++ "\x7d"
  | .arr es => "[" ++ ", ".intercalate (pyReprElems es) ++ "]"

def pyReprFields : List (String × Json) → List String
  | [] => []
  | (k, v) :: r => ("\x27" ++ k ++ "\x27: " ++ pyRepr v) :: pyReprFields r

def pyReprElems : List Json → List String
  | [] => []
  | v :: r => pyRepr v :: pyReprElems r

end

def pyStr : Json → String
  | .str s => s
  | j => pyRepr j

/-- Python iteration (`for x in j`): lists yield elements, dicts yield their
keys, strings yield one-character strings; `None` and numbers raise
`TypeError`. -/
def pyIter : Json → Except String (List Json)
  | .arr es => .ok es
  | .obj fs => .ok (fs.map fun p => Json.str p.1)
  | .str s => .ok (s.data.map fun c => Json.str (String.singleton c))
  | _ => .error "TypeError"

/-- Python membership (`k in j`): key test on dicts, element test on lists,
substring test on strings; `TypeError` otherwise. -/
def pyContains (j : Json) (k : String) : Except String Bool :=
  match j with
  | .obj fs => .ok ((fs.lookup k).isSome)
  | .arr es => .ok (es.contains (Json.str k))
  | .str s => .ok (chSub k.data s.data)
  | _ => .error "TypeError"

/-- `str.join` raises `TypeError` on a non-string element. -/
def asStr : Json → Except String String
  | .str s => .ok s
  | _ => .error "TypeError"

/-- `int + x` raises `TypeError` when `x` is not a number. -/
def asInt : Json → Except String Int
  | .num n => .ok n
  | _ => .error "TypeError"

def exceptOk {α : Type} : Except String α → Bool
  | .ok _ => true
  | .error _ => false

/-- Left-to-right effectful map: Python's loop-and-append (or a list
comprehension); the first raised error propagates. -/
def exMap {β : Type} (f : Json → Except String β) : List Json → Except String (List β)
  | [] => .ok []
  | x :: xs => do
    let y ← f x
    let ys ← exMap f xs
    pure (y :: ys)

/-- Left-to-right effectful fold, for the work-log accumulation loop. -/
def exFold {β : Type} (f : β → Json → Except String β) : β → List Json → Except String β
  | b, [] => .ok b
  | b, x :: xs => do
    let b2 ← f b x
    exFold f b2 xs

/-- Python `", ".join(j)`: iterate, require every element to be a string,
concatenate with the separator. -/
def pyJoin (sep : String) (j : Json) : Except String String := do
  let items ← pyIter j
  let strs ← exMap asStr items
  pure (sep.intercalate strs)

/-- One iteration of the comment loop of `process_comments`
(extract.py lines 155-160). -/
def commentLine (comment : Json) : Except String String := do
  let a0 ← pyGet comment "author" (Json.obj [])
  let author ← pyGet a0 "displayName" (Json.str "Unknown")
  let created ← pyGet comment "created" (Json.str "Unknown date")
  let body ← pyGet comment "body" (Json.str "No content")
  pure ("[" ++ pyStr created ++ "] " ++ pyStr author ++ ": " ++ pyStr body)

/-- `process_comments` (extract.py lines 139-162). -/
def process_comments (comment_field : Json) : Except String String :=
  if !truthy comment_field then .ok "" else do
    let c0 ← pyGet comment_field "comments" Json.null
    if !truthy c0 then .ok "" else do
      let comments ← pyGet comment_field "comments" (Json.arr [])
      let items ← pyIter comments
      let formatted ← exMap commentLine items
      pure ("\n---\n".intercalate formatted)

/-- Lines 192-199 of extract.py: format one linked issue reference, shared by
both directions of the link loop. -/
def linkedRef (direction : String) (relation linked_issue : Json) :
    Except String String := do
  let key ← pyGet linked_issue "key" (Json.str "Unknown")
  let hasFields ← pyContains linked_issue "fields"
  let status ← if hasFields then do
      let f ← pyGet linked_issue "fields" (Json.obj [])
      let st ← pyGet f "status" (Json.obj [])
      pyGet st "name" (Json.str "Unknown status")
    else pure (Json.str "Unknown status")
  let hasFields2 ← pyContains linked_issue "fields"
  let summary ← if hasFields2 then do
      let f ← pyGet linked_issue "fields" (Json.obj [])
      pyGet f "summary" (Json.str "No summary")
    else pure (Json.str "No summary")
  pure (direction ++ ": " ++ pyStr relation ++ " " ++ pyStr key ++ " [" ++
    pyStr status ++ "] - " ++ pyStr summary)

/-- The `"outwardIssue" in link` branch of the link loop (extract.py lines
181-184); it never reads `inwardIssue`. -/
def outwardBranch (link : Json) : Except String String := do
  let ty ← pyGet link "type" (Json.obj [])
  let relation ← pyGet ty "outward" (Json.str "relates to")
  let linked_issue ← pyGet link "outwardIssue" (Json.obj [])
  linkedRef "outward" relation linked_issue

/-- The `elif "inwardIssue" in link` branch (extract.py lines 185-188). -/
def inwardBranch (link : Json) : Except String String := do
  let ty ← pyGet link "type" (Json.obj [])
  let relation ← pyGet ty "inward" (Json.str "is related to by")
  let linked_issue ← pyGet link "inwardIssue" (Json.obj [])
  linkedRef "inward" relation linked_issue

/-- One iteration of the link loop; `none` models `continue` (the link is
skipped, appending nothing). -/
def linkLine (link : Json) : Except String (Option String) := do
  let hasOut ← pyContains link "outwardIssue"
  if hasOut then do
    let s ← outwardBranch link
    pure (some s)
  else do
    let hasIn ← pyContains link "inwardIssue"
    if hasIn then do
      let s ← inwardBranch link
      pure (some s)
    else pure none

/-- `process_issue_links` (extract.py lines 165-201); appending inside the
loop with `continue` on skipped links is the same as dropping the `none`
results. -/
def process_issue_links (issuelinks : Json) : Except String String :=
  if !truthy issuelinks then .ok "" else do
    let links ← pyIter issuelinks
    let opts ← exMap linkLine links
    pure ("\n".intercalate opts.reduceOption)

/-- One iteration of the subtask loop (extract.py lines 219-226). -/
def subtaskLine (subtask : Json) : Except String String := do
  let key ← pyGet subtask "key" (Json.str "Unknown")
  let hasFields ← pyContains subtask "fields"
  let status ← if hasFields then do
      let f ← pyGet subtask "fields" (Json.obj [])
      let st ← pyGet f "status" (Json.obj [])
      pyGet st "name" (Json.str "Unknown status")
    else pure (Json.str "Unknown status")
  let hasFields2 ← pyContains subtask "fields"
  let summary ← if hasFields2 then do
      let f ← pyGet subtask "fields" (Json.obj [])
      pyGet f "summary" (Json.str "No summary")
    else pure (Json.str "No summary")
  pure (pyStr key ++ " [" ++ pyStr status ++ "] - " ++ pyStr summary)

/-- `process_subtasks` (extract.py lines 204-228). -/
def process_subtasks (subtasks : Json) : Except String String :=
  if !truthy subtasks then .ok "" else do
    let items ← pyIter subtasks
    let lines ← exMap subtaskLine items
    pure ("\n".intercalate lines)

/-- `process_fix_versions` (extract.py lines 231-244): the comprehension
collects `version.get("name", "Unknown")`, then `", ".join` requires every
collected value to be a string. -/
def process_fix_versions (fix_versions : Json) : Except String String :=
  if !truthy fix_versions then .ok "" else do
    let items ← pyIter fix_versions
    let names ← exMap (fun version => pyGet version "name" (Json.str "Unknown")) items
    let strs ← exMap asStr names
    pure (", ".intercalate strs)

/-- `process__versions` (extract.py lines 245-258) — textually the same body
as `process_fix_versions` up to the parameter name. -/
def process__versions (versions : Json) : Except String String :=
  if !truthy versions then .ok "" else do
    let items ← pyIter versions
    let names ← exMap (fun version => pyGet version "name" (Json.str "Unknown")) items
    let strs ← exMap asStr names
    pure (", ".intercalate strs)

/-- `convert_seconds_to_hm` (extract.py lines 291-303): Python `//` and `%`
are flooring division and flooring remainder, i.e. `Int.fdiv` / `Int.fmod`. -/
def convert_seconds_to_hm (seconds : Int) : String :=
  toString (seconds.fdiv 3600) ++ "h " ++ toString ((seconds.fmod 3600).fdiv 60) ++ "m"

/-- `defaultdict(int)` update `temps_par_collaborateur[author] += secs`;
Python dicts preserve insertion order, so the dict is an association list
with the new author appended at the end. -/
def addTime : List (Json × Int) → Json → Int → List (Json × Int)
  | [], a, s => [(a, s)]
  | (k, v) :: rest, a, s =>
    if k == a then (k, v + s) :: rest else (k, v) :: addTime rest a s

/-- One iteration of the accumulation loop of
`calculer_temps_par_collaborateur` (extract.py lines 320-325). -/
def worklogStep (acc : List (Json × Int)) (entry : Json) :
    Except String (List (Json × Int)) := do
  let a0 ← pyGet entry "author" (Json.obj [])
  let author ← pyGet a0 "displayName" (Json.str "Inconnu")
  let ts ← pyGet entry "timeSpentSeconds" (Json.num 0)
  let n ← asInt ts
  pure (addTime acc author n)

/-- The accumulation loop of `calculer_temps_par_collaborateur` — the spec's
`sumDurationsByAuthor`. -/
def sumDurationsByAuthor (entries : List Json) : Except String (List (Json × Int)) :=
  exFold worklogStep [] entries

/-- `calculer_temps_par_collaborateur` (extract.py lines 305-334). -/
def calculer_temps_par_collaborateur (worklog : Json) :
    Except String (List (Json × String)) := do
  let entries ← pyIter worklog
  let totals ← sumDurationsByAuthor entries
  pure (totals.map fun p => (p.1, convert_seconds_to_hm p.2))

/-- A cell of a flattened row: a raw field value, a string built by a
normalizer/join, or the per-author worklog dict. -/
inductive Cell where
  | js (j : Json)
  | s (v : String)
  | table (m : List (Json × String))

/-- The values computed by the per-issue loop of `save_to_csv` (extract.py
lines 346-408), in source order. -/
structure RowVals where
  key : Json
  issue_type : Json
  summary : Json
  description : Json
  status : Json
  priority : Json
  created : Json
  updated : Json
  reporter : Json
  assignee : Json
  resolution : Json
  resolution_date : Json
  release_note : Json
  target_version : Json
  labels : String
  components : String
  versions : String
  fix_versions : String
  module_feature : Json
  issue_links : String
  subtasks : String
  parent : Json
  due_date : Json
  watches : Json
  comments : String
  worklog : List (Json × String)

/-- `X.get(k, {}).get(k2, d) if X.get(k) else dflt` — the guarded two-level
lookup pattern used throughout `save_to_csv`. -/
def guardedGet (fields : Json) (k k2 : String) (d dflt : Json) :
    Except String Json := do
  let v0 ← pyGet fields k Json.null
  if truthy v0 then do
    let v ← pyGet fields k (Json.obj [])
    pyGet v k2 d
  else pure dflt

/-- The field extraction of the per-issue loop of `save_to_csv` (extract.py
lines 346-408), in source order. -/
def buildRow (issue : Json) : Except String RowVals := do
  let key ← pyGet issue "key" (Json.str "")
  let fields ← pyGet issue "fields" (Json.obj [])
  let issue_type ← guardedGet fields "issuetype" "name" (Json.str "") (Json.str "")
  let summary ← pyGet fields "summary" (Json.str "")
  let description ← pyGet fields "description" (Json.str "")
  let status ← guardedGet fields "status" "name" (Json.str "") (Json.str "")
  let priority ← guardedGet fields "priority" "name" (Json.str "") (Json.str "")
  let created ← pyGet fields "created" (Json.str "")
  let updated ← pyGet fields "updated" (Json.str "")
  let reporter ← guardedGet fields "reporter" "displayName" (Json.str "") (Json.str "")
  let assignee ← guardedGet fields "assignee" "displayName" (Json.str "") (Json.str "")
  let resolution ← guardedGet fields "resolution" "name" (Json.str "") (Json.str "Unresolved")
  let resolution_date ← pyGet fields "resolutiondate" (Json.str "")
  let release_note ← pyGet fields "customfield_13570" (Json.str "")
  let target_version ← pyGet fields "customfield_13751" Json.null
  let labels0 ← pyGet fields "labels" (Json.arr [])
  let labels ← pyJoin ", " labels0
  let components0 ← pyGet fields "components" (Json.arr [])
  let citems ← pyIter components0
  let cnames ← exMap (fun c => pyGet c "name" (Json.str "")) citems
  let cstrs ← exMap asStr cnames
  let components := ", ".intercalate cstrs
  let versions0 ← pyGet fields "versions" (Json.arr [])
  let versions ← process__versions versions0
  let fix0 ← pyGet fields "fixVersions" (Json.arr [])
  let fix_versions ← process_fix_versions fix0
  let module_feature ← pyGet fields "customfield_19850" Json.null
  let links0 ← pyGet fields "issuelinks" (Json.arr [])
  let issue_links ← process_issue_links links0
  let sub0 ← pyGet fields "subtasks" (Json.arr [])
  let subtasks ← process_subtasks sub0
  let parent ← guardedGet fields "parent" "key" (Json.str "") (Json.str "")
  let due_date ← pyGet fields "duedate" (Json.str "")
  let watches ← guardedGet fields "watches" "watchCount" (Json.num 0) (Json.num 0)
  let comments0 ← pyGet fields "comment" Json.null
  let comments ← process_comments comments0
  let w0 ← pyGet fields "worklog" (Json.obj [])
  let wl ← pyGet w0 "worklogs" (Json.arr [])
  let worklog ← calculer_temps_par_collaborateur wl
  pure ⟨key, issue_type, summary, description, status, priority, created,
    updated, reporter, assignee, resolution, resolution_date, release_note,
    target_version, labels, components, versions, fix_versions,
    module_feature, issue_links, subtasks, parent, due_date, watches,
    comments, worklog⟩

/-- The `processed_issue` dict literal (extract.py lines 410-438): a fixed
ordered column→value mapping. -/
def processed_issue (r : RowVals) : List (String × Cell) :=
  [("Key", .js r.key),
   ("Type", .js r.issue_type),
   ("Summary", .js r.summary),
   ("Description", .js r.description),
   ("Status", .js r.status),
   ("Resolution", .js r.resolution),
   ("Resolution Date", .js r.resolution_date),
   ("Release Note", .js r.release_note),
   ("Priority", .js r.priority),
   ("Created", .js r.created),
   ("Updated", .js r.updated),
   ("Due Date", .js r.due_date),
   ("Reporter", .js r.reporter),
   ("Assignee", .js r.assignee),
   ("Labels", .s r.labels),
   ("Components", .s r.components),
   ("Versions", .s r.versions),
   ("Fix Versions", .s r.fix_versions),
   ("Target Version", .js r.target_version),
   ("Parent Issue", .js r.parent),
   ("Watchers", .js r.watches),
   ("Issue Links", .s r.issue_links),
   ("Subtasks", .s r.subtasks),
   ("Comments", .s r.comments),
   ("Module-Feature", .js r.module_feature),
   ("Worklog", .table r.worklog)]

/-- One pass of the per-issue loop of `save_to_csv`. -/
def flatten_issue (issue : Json) : Except String (List (String × Cell)) := do
  let r ← buildRow issue
  pure (processed_issue r)

/-- The whole row-building phase of `save_to_csv` over a list of issues. -/
def save_to_csv_rows (issues : List Json) :
    Except String (List (List (String × Cell))) :=
  exMap flatten_issue issues

/-- The declared column schema, in the order of the `processed_issue` dict
literal (and of spec §6). -/
def columns : List String :=
  ["Key", "Type", "Summary", "Description", "Status", "Resolution",
   "Resolution Date", "Release Note", "Priority", "Created", "Updated",
   "Due Date", "Reporter", "Assignee", "Labels", "Components", "Versions",
   "Fix Versions", "Target Version", "Parent Issue", "Watchers",
   "Issue Links", "Subtasks", "Comments", "Module-Feature", "Worklog"]

/-! ### Pagination client (`fetch_jira_issues`, extract.py lines 8-137)

The HTTP layer is abstracted by oracles: the count probe either succeeds
with a reported total, responds with a non-200 status, or raises a
transport exception; each page request (a POST with a given `startAt` and
`maxResults`) likewise.  The JQL string, headers and field list are the
same constants on every request and are elided; `time.sleep(1)` has no
observable effect on the result. -/

inductive ProbeResp where
  | ok (total : Nat)
  | errStatus
  | exc

inductive PageResp (α : Type) where
  | ok (issues : List α)
  | errStatus
  | exc

structure PageRequest where
  startAt : Nat
  maxResults : Nat
deriving DecidableEq

/-- `batch_size = 100` (extract.py line 24). -/
def batch_size : Nat := 100

/-- The `while len(all_issues) < total_to_fetch` loop (extract.py lines
67-135), also recording the page requests issued.  The loop needs no fuel in
Python because every continuing iteration appends at least one issue; here
`fuel` is an upper bound on the remaining iterations, and any
`fuel ≥ target - acc.length` gives the loop's exact behaviour
(`fetchLoop_fuel_eq` below). -/
def fetchLoop (server : Nat → Nat → PageResp α) (target : Nat) :
    Nat → Nat → List α → List PageRequest → List α × List PageRequest
  | 0, _, acc, log => (acc, log)
  | fuel + 1, start_at, acc, log =>
    if acc.length < target then
      let mr := min batch_size (target - acc.length)
      let log2 := log ++ [⟨start_at, mr⟩]
      match server start_at mr with
      | .ok issues =>
        if issues.length = 0 then (acc, log2)
        else fetchLoop server target fuel (start_at + issues.length) (acc ++ issues) log2
      | .errStatus => (acc, log2)
      | .exc => (acc, log2)
    else (acc, log)

/-- `fetch_jira_issues`: probe for the total, compute `total_to_fetch`, then
page.  Returns the accumulated issues and the page-request log. -/
def fetch_jira_issues (probe : ProbeResp) (server : Nat → Nat → PageResp α)
    (max_issues : Option Nat) : List α × List PageRequest :=
  match probe with
  | .ok total_available =>
    let total_to_fetch := match max_issues with
      | none => total_available
      | some m => min m total_available
    fetchLoop server total_to_fetch total_to_fetch 0 [] []
  | .errStatus => ([], [])
  | .exc => ([], [])

/-- Once the target is reached the loop stops at once, whatever the fuel. -/
theorem fetchLoop_done (server : Nat → Nat → PageResp α) (target fuel start_at : Nat)
    (acc : List α) (log : List PageRequest) (h : target ≤ acc.length) :
    fetchLoop server target fuel start_at acc log = (acc, log) := by
  cases fuel with
  | zero => rfl
  | succ n => simp [fetchLoop, Nat.not_lt.mpr h]

/-- Any fuel at least `target - acc.length` yields the same run, so
`fetch_jira_issues`'s choice `fuel = total_to_fetch` is exact. -/
theorem fetchLoop_fuel_eq (server : Nat → Nat → PageResp α) (target : Nat) :
    ∀ fuel1 fuel2 start_at (acc : List α) log,
      target - acc.length ≤ fuel1 → target - acc.length ≤ fuel2 →
      fetchLoop server target fuel1 start_at acc log =
        fetchLoop server target fuel2 start_at acc log := by
  intro fuel1
  induction fuel1 with
  | zero =>
    intro fuel2 start_at acc log h1 h2
    have : target ≤ acc.length := by omega
    rw [fetchLoop_done server target 0 start_at acc log this,
      fetchLoop_done server target fuel2 start_at acc log this]
  | succ n ih =>
    intro fuel2 start_at acc log h1 h2
    by_cases hlt : acc.length < target
    · cases fuel2 with
      | zero => omega
      | succ m =>
        simp only [fetchLoop, hlt, if_true]
        cases hs : server start_at (min batch_size (target - acc.length)) with
        | ok issues =>
          by_cases hz : issues.length = 0
          · simp [hz]
          · simp only [hz, if_false]
            apply ih
            · simp; omega
            · simp; omega
        | errStatus => rfl
        | exc => rfl
    · have : target ≤ acc.length := by omega
      rw [fetchLoop_done server target (n + 1) start_at acc log this,
        fetchLoop_done server target fuel2 start_at acc log this]

/-- `total_to_fetch` (extract.py line 59). -/
def total_to_fetch (max_issues : Option Nat) (total_available : Nat) : Nat :=
  match max_issues with
  | none => total_available
  | some m => min m total_available

/-- The page requests a run issues when every page comes back full: one
request per `batch_size` block below the target. -/
def expectedReqs (target k : Nat) : List PageRequest :=
  if batch_size * k < target then
    ⟨batch_size * k, min batch_size (target - batch_size * k)⟩ ::
      expectedReqs target (k + 1)
  else []
termination_by target - batch_size * k
decreasing_by simp_wf; simp only [batch_size] at *; omega

theorem fetch_jira_issues_ok_eq (server : Nat → Nat → PageResp α)
    (mi : Option Nat) (t : Nat) :
    fetch_jira_issues (ProbeResp.ok t) server mi =
      fetchLoop server (total_to_fetch mi t) (total_to_fetch mi t) 0 [] [] := by
  cases mi <;> rfl

/-- Behaviour of the page loop against a server whose every page is full
(returns exactly the `maxResults` records asked for). -/
theorem fetchLoop_full (server : Nat → Nat → PageResp α)
    (pages : Nat → Nat → List α)
    (hfull : ∀ s m, server s m = .ok (pages s m) ∧ (pages s m).length = m)
    (target : Nat) :
    ∀ fuel k (acc : List α) log, acc.length = batch_size * k →
      target - batch_size * k ≤ fuel →
      (fetchLoop server target fuel (batch_size * k) acc log).1.length
          = max acc.length target ∧
      (fetchLoop server target fuel (batch_size * k) acc log).2
          = log ++ expectedReqs target k := by
  intro fuel
  induction fuel with
  | zero =>
    intro k acc log hk hf
    have ht : target ≤ acc.length := by omega
    rw [fetchLoop_done server target 0 (batch_size * k) acc log ht]
    rw [expectedReqs]
    have : ¬ batch_size * k < target := by omega
    simp [this]
    omega
  | succ n ih =>
    intro k acc log hk hf
    simp only [batch_size] at *
    by_cases hlt : acc.length < target
    · simp only [fetchLoop, batch_size, hlt, if_true]
      obtain ⟨hs, hlen⟩ := hfull (100 * k) (min 100 (target - acc.length))
      rw [hs]
      generalize hg : pages (100 * k) (min 100 (target - acc.length)) = P at hlen
      have hz : ¬ P.length = 0 := by omega
      simp only [hz, if_false]
      by_cases hend : target ≤ 100 * (k + 1)
      · -- final (possibly short) page: the target is reached exactly
        have hlen2 : (acc ++ P).length = target := by simp; omega
        rw [fetchLoop_done server target n _ _ _ (le_of_eq hlen2.symm)]
        constructor
        · simp; omega
        · have h1 : 100 * k < target := by omega
          have h2 : ¬ 100 * (k + 1) < target := by omega
          rw [expectedReqs, expectedReqs]
          simp [batch_size, h1, h2, hk]
      · -- full middle page of batch_size records
        have hlen2 : (acc ++ P).length = 100 * (k + 1) := by simp; omega
        have hstart : 100 * k + P.length = 100 * (k + 1) := by omega
        rw [hstart]
        have hfuel2 : target - 100 * (k + 1) ≤ n := by omega
        obtain ⟨ih1, ih2⟩ := ih (k + 1) (acc ++ P)
          (log ++ [⟨100 * k, min 100 (target - acc.length)⟩]) hlen2 hfuel2
        constructor
        · rw [ih1, hlen2]; omega
        · rw [ih2]
          conv_rhs => rw [expectedReqs]
          have h1 : 100 * k < target := by omega
          simp [batch_size, h1, hk, List.append_assoc]
    · have ht : target ≤ acc.length := by omega
      rw [fetchLoop_done server target (n + 1) (100 * k) acc log ht]
      rw [expectedReqs]
      have : ¬ 100 * k < target := by omega
      simp [batch_size, this]
      omega

/-- The startAt offsets of a full-page run are the successive multiples of
`batch_size`. -/
theorem expectedReqs_startAts (target : Nat) : ∀ n k, target - batch_size * k ≤ n →
    (expectedReqs target k).map PageRequest.startAt =
      (List.range (expectedReqs target k).length).map (fun i => batch_size * (k + i)) := by
  intro n
  induction n with
  | zero =>
    intro k h
    rw [expectedReqs]
    have : ¬ batch_size * k < target := by omega
    simp [this]
  | succ n ih =>
    intro k h
    rw [expectedReqs]
    by_cases hc : batch_size * k < target
    · simp only [hc, if_true]
      have hn : target - batch_size * (k + 1) ≤ n := by
        simp only [batch_size] at *; omega
      have ih2 := ih (k + 1) hn
      simp only [List.map_cons, List.length_cons, ih2, List.range_succ_eq_map,
        List.map_map, List.cons.injEq]
      refine ⟨by ring, ?_⟩
      apply List.map_congr_left
      intro i _
      simp only [Function.comp, Nat.succ_eq_add_one]
      ring
    · simp [hc]

/-- Every request of a full-page run asks for `min batch_size (target - startAt)`
records, hence never more than `batch_size` and never past the target. -/
theorem expectedReqs_maxResults (target : Nat) : ∀ n k r, target - batch_size * k ≤ n →
    r ∈ expectedReqs target k →
    r.maxResults = min batch_size (target - r.startAt) ∧ r.maxResults ≤ batch_size := by
  intro n
  induction n with
  | zero =>
    intro k r h hm
    rw [expectedReqs] at hm
    have : ¬ batch_size * k < target := by omega
    simp [this] at hm
  | succ n ih =>
    intro k r h hm
    rw [expectedReqs] at hm
    by_cases hc : batch_size * k < target
    · simp only [hc, if_true, List.mem_cons] at hm
      cases hm with
      | inl he => subst he; simp
      | inr ht =>
        apply ih (k + 1) r _ ht
        simp only [batch_size] at *; omega
    · simp [hc] at hm

/-- A server whose every page is full: record `i` is just the integer `i`. -/
def fullServer : Nat → Nat → PageResp Nat :=
  fun start_at m => .ok ((List.range m).map (fun i => start_at + i))

theorem fullServer_full : ∀ s m, fullServer s m = .ok ((List.range m).map (fun i => s + i)) ∧
    ((List.range m).map (fun i => s + i)).length = m := by
  intro s m
  exact ⟨rfl, by simp⟩

/-- A server that serves 100 records, then 20, then fails: 120 records
accumulate before the first page failure. -/
def server120 : Nat → Nat → PageResp Nat :=
  fun start_at _ =>
    if start_at = 0 then .ok (List.range 100)
    else if start_at = 100 then .ok ((List.range 20).map (fun i => 100 + i))
    else .errStatus

/-- A page failure (non-200 or exception) mid-loop returns exactly the
records accumulated so far. -/
theorem fetchLoop_fail_keeps (server : Nat → Nat → PageResp α)
    (target fuel start_at : Nat) (acc : List α) (log : List PageRequest)
    (hlt : acc.length < target)
    (hfail : server start_at (min batch_size (target - acc.length)) = .errStatus ∨
      server start_at (min batch_size (target - acc.length)) = .exc) :
    (fetchLoop server target (fuel + 1) start_at acc log).1 = acc := by
  cases hfail with
  | inl h => simp [fetchLoop, hlt, h]
  | inr h => simp [fetchLoop, hlt, h]

/-- A server that always answers a page with zero records. -/
def zeroServer : Nat → Nat → PageResp Nat := fun _ _ => .ok []

set_option maxRecDepth 8000 in
/-- C1: if the count probe fails (non-200 status or a raised exception) the
whole run yields an empty record list; a page failure (non-200 or exception)
mid-pagination stops the loop and returns exactly what was accumulated; in
particular a page failure after 120 accumulated records yields exactly those
120 records. -/
theorem fetch_failure_contract :
    (∀ (α : Type) (server : Nat → Nat → PageResp α) (mi : Option Nat),
        (fetch_jira_issues ProbeResp.errStatus server mi).1 = [] ∧
        (fetch_jira_issues ProbeResp.exc server mi).1 = []) ∧
    (∀ (α : Type) (server : Nat → Nat → PageResp α) (target fuel start_at : Nat)
        (acc : List α) (log : List PageRequest),
        acc.length < target →
        (server start_at (min batch_size (target - acc.length)) = .errStatus ∨
          server start_at (min batch_size (target - acc.length)) = .exc) →
        (fetchLoop server target (fuel + 1) start_at acc log).1 = acc) ∧
    ((fetch_jira_issues (ProbeResp.ok 250) server120 none).1 =
        List.range 100 ++ (List.range 20).map (fun i => 100 + i) ∧
      (fetch_jira_issues (ProbeResp.ok 250) server120 none).1.length = 120) := by
  refine ⟨fun α server mi => ⟨rfl, rfl⟩, ?_, by decide⟩
  intro α server target fuel start_at acc log hlt hfail
  exact fetchLoop_fail_keeps server target fuel start_at acc log hlt hfail

/-- Witness for C1: the page-failure clause applied to the concrete run in
which 120 records have been accumulated and the next page request fails. -/
theorem fetch_failure_contract_witness :
    (fetchLoop server120 250 (5 + 1) 120 (List.range 120) []).1 = List.range 120 :=
  fetch_failure_contract.2.1 Nat server120 250 5 120 (List.range 120) []
    (by decide) (Or.inl rfl)

set_option maxRecDepth 8000 in
/-- C2: against a server whose every successful page is full, the run fetches
exactly `total_to_fetch` = `min max_issues total` (or `total`) records; the
requests go out at successive offsets 0, 100, 200, ... and each asks for
`min 100 (target - startAt)` ≤ 100 records; with total 250 and no maximum,
exactly the three requests (0,100), (100,100), (200,50) are issued; and a
page of zero records stops the loop at once. -/
theorem fetch_pagination_contract :
    (∀ (α : Type) (server : Nat → Nat → PageResp α) (pages : Nat → Nat → List α)
        (t : Nat) (mi : Option Nat),
        (∀ s m, server s m = .ok (pages s m) ∧ (pages s m).length = m) →
        (fetch_jira_issues (ProbeResp.ok t) server mi).1.length = total_to_fetch mi t ∧
        (fetch_jira_issues (ProbeResp.ok t) server mi).2 =
          expectedReqs (total_to_fetch mi t) 0) ∧
    (∀ target k, (expectedReqs target k).map PageRequest.startAt =
        (List.range (expectedReqs target k).length).map (fun i => batch_size * (k + i))) ∧
    (∀ target k r, r ∈ expectedReqs target k →
        r.maxResults = min batch_size (target - r.startAt) ∧
        r.maxResults ≤ batch_size) ∧
    ((fetch_jira_issues (ProbeResp.ok 250) fullServer none).2 =
        [⟨0, 100⟩, ⟨100, 100⟩, ⟨200, 50⟩] ∧
      (fetch_jira_issues (ProbeResp.ok 250) fullServer none).1.length = 250) ∧
    (∀ (α : Type) (server : Nat → Nat → PageResp α) (target fuel start_at : Nat)
        (acc : List α) (log : List PageRequest),
        acc.length < target →
        server start_at (min batch_size (target - acc.length)) = .ok [] →
        (fetchLoop server target (fuel + 1) start_at acc log).1 = acc) := by
  refine ⟨?_, ?_, ?_, by decide, ?_⟩
  · intro α server pages t mi hfull
    obtain ⟨h1, h2⟩ := fetchLoop_full server pages hfull (total_to_fetch mi t)
      (total_to_fetch mi t) 0 [] [] (by simp) (by simp)
    rw [fetch_jira_issues_ok_eq]
    constructor
    · simpa using h1
    · simpa using h2
  · intro target k
    exact expectedReqs_startAts target target k (Nat.sub_le _ _)
  · intro target k r hm
    exact expectedReqs_maxResults target target k r (Nat.sub_le _ _) hm
  · intro α server target fuel start_at acc log hlt h
    simp [fetchLoop, hlt, h]

/-- Witness for C2: its hypothesis-bearing clauses applied at concrete
inputs — the full-page server with total 250, a concrete member of the
expected request list, and the zero-record server. -/
theorem fetch_pagination_contract_witness :
    (fetch_jira_issues (ProbeResp.ok 250) fullServer none).1.length =
        total_to_fetch none 250 ∧
    ((⟨0, min batch_size (100 - batch_size * 0)⟩ : PageRequest).maxResults ≤ batch_size) ∧
    (fetchLoop zeroServer 10 (0 + 1) 0 [] []).1 = [] := by
  refine ⟨(fetch_pagination_contract.1 Nat fullServer
      (fun s m => (List.range m).map (fun i => s + i)) 250 none fullServer_full).1,
    ?_, ?_⟩
  · refine (fetch_pagination_contract.2.2.1 100 0
      ⟨0, min batch_size (100 - batch_size * 0)⟩ ?_).2
    rw [expectedReqs]
    simp [batch_size]
  · exact fetch_pagination_contract.2.2.2.2 Nat zeroServer 10 0 0 [] []
      (by decide) rfl

example : process_comments Json.null = .ok "" := by decide
example : process_comments (Json.obj [("comments", Json.arr
    [Json.obj [("author", Json.obj [("displayName", Json.str "Bob")]),
               ("created", Json.str "2024-01-01"), ("body", Json.str "hi")]])]) =
    .ok "[2024-01-01] Bob: hi" := by decide
example : convert_seconds_to_hm 3661 = "1h 1m" := by decide
example : process_fix_versions (Json.arr [Json.obj [], Json.obj [("name", Json.str "v2")]]) =
    .ok "Unknown, v2" := by decide

/-! ### Duration formatting (C4) -/

theorem int_fdiv_3600 (s : Nat) : Int.fdiv (s : Int) 3600 = ((s / 3600 : Nat) : Int) := by
  cases s <;> rfl

theorem int_fmod_3600 (s : Nat) : Int.fmod (s : Int) 3600 = ((s % 3600 : Nat) : Int) := by
  cases s <;> rfl

theorem int_fdiv_60 (s : Nat) : Int.fdiv (s : Int) 60 = ((s / 60 : Nat) : Int) := by
  cases s <;> rfl

theorem toString_int_ofNat (n : Nat) : toString ((n : Nat) : Int) = toString n := rfl

/-- C4: for every nonnegative number of seconds `s`, `convert_seconds_to_hm`
(the spec's `formatDuration`) renders `"<H>h <M>m"` with `H = s / 3600` and
`M = (s % 3600) / 60`, truncating sub-minute seconds; in particular `0 ↦
"0h 0m"`, `3661 ↦ "1h 1m"`, `59 ↦ "0h 0m"`. -/
theorem convert_seconds_to_hm_spec :
    (∀ s : Nat, convert_seconds_to_hm (s : Int) =
      toString (s / 3600) ++ "h " ++ toString ((s % 3600) / 60) ++ "m") ∧
    convert_seconds_to_hm 0 = "0h 0m" ∧
    convert_seconds_to_hm 3661 = "1h 1m" ∧
    convert_seconds_to_hm 59 = "0h 0m" := by
  refine ⟨?_, by decide, by decide, by decide⟩
  intro s
  unfold convert_seconds_to_hm
  rw [int_fdiv_3600, int_fmod_3600, int_fdiv_60, toString_int_ofNat, toString_int_ofNat]

/-! ### Version-list formatting (C9) -/

/-- The name a (well-formed) version entry contributes to the join. -/
def versionName : Json → String
  | .obj fs =>
    match fs.lookup "name" with
    | some (.str s) => s
    | _ => "Unknown"
  | _ => "Unknown"

/-- A version entry the join can process without raising: a record whose
`name`, when present, is a string. -/
def wfVersion : Json → Bool
  | .obj fs =>
    match fs.lookup "name" with
    | none => true
    | some (.str _) => true
    | some _ => false
  | _ => false

theorem ok_bind {α β : Type} (a : α) (f : α → Except String β) :
    (Except.ok a >>= f : Except String β) = f a := rfl

theorem exMap_ok {β : Type} (f : Json → Except String β) (g : Json → β) :
    ∀ l : List Json, (∀ x ∈ l, f x = .ok (g x)) → exMap f l = .ok (l.map g) := by
  intro l
  induction l with
  | nil => intro _; rfl
  | cons x xs ih =>
    intro h
    have h1 := h x (List.mem_cons_self x xs)
    have h2 := ih (fun y hy => h y (List.mem_cons_of_mem x hy))
    simp only [exMap, h1, h2, ok_bind, List.map_cons]
    rfl

theorem exMap_asStr_of_strs (l : List String) :
    exMap asStr (l.map Json.str) = .ok l := by
  induction l with
  | nil => rfl
  | cons x xs ih =>
    simp only [exMap, asStr, List.map_cons, ih, ok_bind]
    rfl

theorem version_get_ok (v : Json) (hv : wfVersion v = true) :
    pyGet v "name" (Json.str "Unknown") = .ok (Json.str (versionName v)) := by
  cases v with
  | obj fs =>
    simp only [pyGet, versionName]
    cases hl : fs.lookup "name" with
    | none => simp [hl]
    | some j => cases j <;> simp_all [wfVersion, hl]
  | null => simp [wfVersion] at hv
  | str s => simp [wfVersion] at hv
  | num n => simp [wfVersion] at hv
  | arr es => simp [wfVersion] at hv

theorem fix_versions_ok (vs : List Json) (hne : vs ≠ [])
    (h : vs.all wfVersion = true) :
    process_fix_versions (Json.arr vs) = .ok (", ".intercalate (vs.map versionName)) := by
  have ht : truthy (Json.arr vs) = true := by
    simp [truthy, List.isEmpty_iff, hne]
  have hnames := exMap_ok (fun version => pyGet version "name" (Json.str "Unknown"))
    (fun v => Json.str (versionName v)) vs
    (fun x hx => version_get_ok x (by
      have := List.all_eq_true.mp h x hx
      simpa using this))
  have hmm : (vs.map fun v => Json.str (versionName v)) =
      (vs.map versionName).map Json.str := by
    simp [List.map_map]
  simp only [process_fix_versions, ht, Bool.not_true, Bool.false_eq_true, if_false,
    pyIter, ok_bind, hnames, hmm, exMap_asStr_of_strs]
  rfl

/-- C9: `process__versions` and `process_fix_versions` agree on every input
(the Versions and Fix Versions columns are formatted identically); on a
nonempty well-formed list both return the comma-joined names, "Unknown" for
an entry lacking a name; an empty or absent list yields the empty string. -/
theorem versions_format_equiv :
    (∀ v : Json, process__versions v = process_fix_versions v) ∧
    (∀ vs : List Json, vs ≠ [] → vs.all wfVersion = true →
      process_fix_versions (Json.arr vs) =
        .ok (", ".intercalate (vs.map versionName))) ∧
    process_fix_versions (Json.arr []) = .ok "" ∧
    process_fix_versions Json.null = .ok "" ∧
    process_fix_versions (Json.arr [Json.obj [], Json.obj [("name", Json.str "v2")]]) =
      .ok "Unknown, v2" :=
  ⟨fun _ => rfl, fix_versions_ok, by decide, by decide, by decide⟩

/-- Witness for C9: the general clause applied to the two-element list with a
nameless first entry. -/
theorem versions_format_equiv_witness :
    process_fix_versions (Json.arr [Json.obj [], Json.obj [("name", Json.str "v2")]]) =
      .ok (", ".intercalate
        ([Json.obj [], Json.obj [("name", Json.str "v2")]].map versionName)) :=
  versions_format_equiv.2.1 [Json.obj [], Json.obj [("name", Json.str "v2")]]
    (by decide) (by decide)

/-! ### Work-log aggregation (C3) -/

/-- The author key one (well-formed) work-log entry contributes:
`entry.get("author", {}).get("displayName", "Inconnu")`. -/
def entryAuthor (e : Json) : Json :=
  match e with
  | .obj fs =>
    match fs.lookup "author" with
    | some (.obj afs) => (afs.lookup "displayName").getD (Json.str "Inconnu")
    | _ => Json.str "Inconnu"
  | _ => Json.str "Inconnu"

/-- The seconds one (well-formed) entry contributes:
`entry.get("timeSpentSeconds", 0)`. -/
def entrySecs (e : Json) : Int :=
  match e with
  | .obj fs =>
    match fs.lookup "timeSpentSeconds" with
    | some (.num n) => n
    | _ => 0
  | _ => 0

/-- A work-log entry the accumulation loop processes without raising: a
record whose `author`, when present, is a record and whose
`timeSpentSeconds`, when present, is a number. -/
def wfWorklogEntry : Json → Bool
  | .obj fs =>
    (match fs.lookup "author" with
     | none => true
     | some (.obj _) => true
     | some _ => false) &&
    (match fs.lookup "timeSpentSeconds" with
     | none => true
     | some (.num _) => true
     | some _ => false)
  | _ => false

/-- Total seconds the entries with author key `a` contribute. -/
def specTotal (entries : List Json) (a : Json) : Int :=
  ((entries.filter (fun e => entryAuthor e == a)).map entrySecs).sum

/-- Does some entry carry author key `a`? -/
def hasAuthor (entries : List Json) (a : Json) : Bool :=
  entries.any (fun e => entryAuthor e == a)

theorem worklogStep_ok (acc : List (Json × Int)) (e : Json)
    (he : wfWorklogEntry e = true) :
    worklogStep acc e = .ok (addTime acc (entryAuthor e) (entrySecs e)) := by
  cases e with
  | obj fs =>
    simp only [wfWorklogEntry, Bool.and_eq_true] at he
    obtain ⟨ha, ht⟩ := he
    simp only [worklogStep, pyGet, entryAuthor, entrySecs]
    cases hla : fs.lookup "author" with
    | none =>
      cases hlt : fs.lookup "timeSpentSeconds" with
      | none => simp [hla, hlt, asInt]; rfl
      | some t =>
        cases t <;> simp_all [hla, hlt, asInt] <;> rfl
    | some a =>
      cases a <;> simp_all [hla]
      cases hlt : fs.lookup "timeSpentSeconds" with
      | none => simp [hlt, asInt, pyGet]; rfl
      | some t =>
        cases t <;> simp_all [hlt, asInt, pyGet] <;> rfl
  | null => simp [wfWorklogEntry] at he
  | str s => simp [wfWorklogEntry] at he
  | num n => simp [wfWorklogEntry] at he
  | arr es => simp [wfWorklogEntry] at he

theorem addTime_lookup (a : Json) (s : Int) (b : Json) :
    ∀ acc : List (Json × Int),
      (addTime acc a s).lookup b =
        if b = a then some ((acc.lookup b).getD 0 + s) else acc.lookup b := by
  intro acc
  induction acc with
  | nil =>
    by_cases hb : b = a
    · simp [addTime, List.lookup, hb]
    · have hf : (b == a) = false := beq_eq_false_iff_ne.mpr hb
      simp [addTime, List.lookup, hb, hf]
  | cons p rest ih =>
    obtain ⟨k, v⟩ := p
    by_cases hka : k = a
    · subst hka
      by_cases hba : b = k
      · subst hba
        simp [addTime, List.lookup]
      · have hf : (b == k) = false := beq_eq_false_iff_ne.mpr hba
        simp [addTime, List.lookup, hba, hf]
    · have hkaf : (k == a) = false := beq_eq_false_iff_ne.mpr hka
      by_cases hbk : b = k
      · subst hbk
        simp [addTime, List.lookup, hka, hkaf]
      · have hbkf : (b == k) = false := beq_eq_false_iff_ne.mpr hbk
        simp [addTime, List.lookup, hka, hkaf, hbkf, ih]

theorem sumDurations_fold :
    ∀ (entries : List Json) (acc : List (Json × Int)),
      entries.all wfWorklogEntry = true →
      ∃ m, exFold worklogStep acc entries = .ok m ∧
        ∀ b, m.lookup b =
          if hasAuthor entries b = true ∨ (acc.lookup b).isSome = true
          then some ((acc.lookup b).getD 0 + specTotal entries b)
          else none := by
  intro entries
  induction entries with
  | nil =>
    intro acc _
    refine ⟨acc, rfl, fun b => ?_⟩
    cases hl : acc.lookup b with
    | none => simp [hasAuthor, specTotal, hl]
    | some v => simp [hasAuthor, specTotal, hl]
  | cons e es ih =>
    intro acc hall
    simp only [List.all_cons, Bool.and_eq_true] at hall
    obtain ⟨he, hes⟩ := hall
    obtain ⟨m, hm, hl⟩ := ih (addTime acc (entryAuthor e) (entrySecs e)) hes
    refine ⟨m, ?_, ?_⟩
    · simp only [exFold, worklogStep_ok acc e he, ok_bind]
      exact hm
    · intro b
      rw [hl b, addTime_lookup]
      by_cases hba : b = entryAuthor e
      · subst hba
        simp [hasAuthor, specTotal, List.any_cons, List.filter_cons, add_assoc]
      · have hf : (entryAuthor e == b) = false :=
          beq_eq_false_iff_ne.mpr (fun h => hba h.symm)
        rw [if_neg hba]
        simp only [hasAuthor, specTotal, List.any_cons, List.filter_cons]
        rw [hf]
        rw [Bool.false_or]
        simp

/-- C3 counterexample: an entry with no author is keyed `"Inconnu"` by the
code, not `"Unknown"` as the claim states. -/
theorem sumDurations_unknown_counterexample :
    sumDurationsByAuthor [Json.obj [("timeSpentSeconds", Json.num 30)]] =
      .ok [(Json.str "Inconnu", 30)] ∧
    Json.str "Inconnu" ≠ Json.str "Unknown" :=
  ⟨by decide, by decide⟩

/-- C3 (amended: the default author key is `"Inconnu"`, not `"Unknown"`): the
accumulation step adds each well-formed entry's `timeSpentSeconds` (0 when
absent) to a running total keyed by the entry's author display name, with
`"Inconnu"` when the author or display name is absent; the resulting map
sends each occurring author key to the sum of that author's durations and
contains no other key. -/
theorem sumDurationsByAuthor_spec :
    ∀ entries : List Json, entries.all wfWorklogEntry = true →
    ∃ m, sumDurationsByAuthor entries = .ok m ∧
      ∀ b, m.lookup b =
        if hasAuthor entries b = true then some (specTotal entries b) else none := by
  intro entries h
  obtain ⟨m, hm, hl⟩ := sumDurations_fold entries [] h
  refine ⟨m, hm, fun b => ?_⟩
  have hb := hl b
  simp only [List.lookup] at hb
  simpa using hb

/-- Witness for C3 (amended), at the spec's own example: authors A, A, B with
1800 + 1800 and 60 seconds. -/
theorem sumDurationsByAuthor_spec_witness :
    ∃ m, sumDurationsByAuthor
        [Json.obj [("author", Json.obj [("displayName", Json.str "A")]),
                   ("timeSpentSeconds", Json.num 1800)],
         Json.obj [("author", Json.obj [("displayName", Json.str "A")]),
                   ("timeSpentSeconds", Json.num 1800)],
         Json.obj [("author", Json.obj [("displayName", Json.str "B")]),
                   ("timeSpentSeconds", Json.num 60)]] = .ok m ∧
      m.lookup (Json.str "A") = some 3600 ∧
      m.lookup (Json.str "B") = some 60 ∧
      m.lookup (Json.str "Unknown") = none := by
  obtain ⟨m, hm, hl⟩ := sumDurationsByAuthor_spec
    [Json.obj [("author", Json.obj [("displayName", Json.str "A")]),
               ("timeSpentSeconds", Json.num 1800)],
     Json.obj [("author", Json.obj [("displayName", Json.str "A")]),
               ("timeSpentSeconds", Json.num 1800)],
     Json.obj [("author", Json.obj [("displayName", Json.str "B")]),
               ("timeSpentSeconds", Json.num 60)]] (by decide)
  refine ⟨m, hm, ?_, ?_, ?_⟩
  · rw [hl (Json.str "A")]; decide
  · rw [hl (Json.str "B")]; decide
  · rw [hl (Json.str "Unknown")]; decide

/-! ### Comment formatting (C6) and normalizer totality (C5) -/

/-- The line one (well-formed) comment contributes. -/
def fmtComment (c : Json) : String :=
  match c with
  | .obj fs =>
    let author := match fs.lookup "author" with
      | some (.obj afs) => (afs.lookup "displayName").getD (Json.str "Unknown")
      | _ => Json.str "Unknown"
    let created := (fs.lookup "created").getD (Json.str "Unknown date")
    let body := (fs.lookup "body").getD (Json.str "No content")
    "[" ++ pyStr created ++ "] " ++ pyStr author ++ ": " ++ pyStr body
  | _ => ""

/-- A comment the loop processes without raising: a record whose `author`,
when present, is a record. -/
def wfComment : Json → Bool
  | .obj fs =>
    (match fs.lookup "author" with
     | none => true
     | some (.obj _) => true
     | some _ => false)
  | _ => false

theorem commentLine_ok (c : Json) (hc : wfComment c = true) :
    commentLine c = .ok (fmtComment c) := by
  cases c with
  | obj fs =>
    simp only [commentLine, pyGet, fmtComment]
    cases hla : fs.lookup "author" with
    | none => simp [hla]; rfl
    | some a => cases a <;> simp_all [wfComment, hla] <;> rfl
  | null => simp [wfComment] at hc
  | str s => simp [wfComment] at hc
  | num n => simp [wfComment] at hc
  | arr es => simp [wfComment] at hc

theorem comments_formats_ok (fs : List (String × Json)) (cs : List Json)
    (hl : fs.lookup "comments" = some (Json.arr cs)) (hne : cs ≠ [])
    (hwf : cs.all wfComment = true) :
    process_comments (Json.obj fs) =
      .ok ("\n---\n".intercalate (cs.map fmtComment)) := by
  have hfs : fs ≠ [] := by
    intro he; subst he; simp [List.lookup] at hl
  have ht : truthy (Json.obj fs) = true := by
    simp [truthy, List.isEmpty_iff, hfs]
  have htv : truthy (Json.arr cs) = true := by
    simp [truthy, List.isEmpty_iff, hne]
  have hmap := exMap_ok commentLine fmtComment cs
    (fun x hx => commentLine_ok x (by
      have := List.all_eq_true.mp hwf x hx
      simpa using this))
  simp only [process_comments, ht, Bool.not_true, Bool.false_eq_true, if_false,
    pyGet, hl, Option.getD_some, htv, pyIter, ok_bind, hmap]
  rfl

/-- C6: `process_comments` returns `""` when the comment field is absent
(falsy) or has no comments (key absent, or a falsy value); on a nonempty
well-formed comment list it returns the per-comment strings
`"[<created>] <author>: <body>"` joined by the separator line `"\n---\n"`,
with defaults for absent attributes; in particular the single comment
`{author: "Bob", created: "2024-01-01", body: "hi"}` gives
`"[2024-01-01] Bob: hi"`. -/
theorem process_comments_spec :
    (∀ j : Json, truthy j = false → process_comments j = .ok "") ∧
    (∀ fs : List (String × Json), fs.lookup "comments" = none →
      process_comments (Json.obj fs) = .ok "") ∧
    (∀ (fs : List (String × Json)) (v : Json), fs.lookup "comments" = some v →
      truthy v = false → process_comments (Json.obj fs) = .ok "") ∧
    (∀ (fs : List (String × Json)) (cs : List Json),
      fs.lookup "comments" = some (Json.arr cs) → cs ≠ [] →
      cs.all wfComment = true →
      process_comments (Json.obj fs) =
        .ok ("\n---\n".intercalate (cs.map fmtComment))) ∧
    process_comments (Json.obj [("comments", Json.arr
      [Json.obj [("author", Json.obj [("displayName", Json.str "Bob")]),
                 ("created", Json.str "2024-01-01"),
                 ("body", Json.str "hi")]])]) = .ok "[2024-01-01] Bob: hi" := by
  refine ⟨?_, ?_, ?_, comments_formats_ok, by decide⟩
  · intro j h
    simp [process_comments, h]
  · intro fs hl
    by_cases ht : truthy (Json.obj fs)
    · simp [process_comments, ht, pyGet, hl, ok_bind, truthy]
    · simp [process_comments, ht]
  · intro fs v hl hv
    by_cases ht : truthy (Json.obj fs)
    · simp [process_comments, ht, pyGet, hl, ok_bind, hv]
    · simp [process_comments, ht]

/-- Witness for C6: the formatting clause applied to the Bob comment. -/
theorem process_comments_spec_witness :
    process_comments (Json.obj [("comments", Json.arr
      [Json.obj [("author", Json.obj [("displayName", Json.str "Bob")]),
                 ("created", Json.str "2024-01-01"),
                 ("body", Json.str "hi")]])]) =
      .ok ("\n---\n".intercalate
        ([Json.obj [("author", Json.obj [("displayName", Json.str "Bob")]),
                    ("created", Json.str "2024-01-01"),
                    ("body", Json.str "hi")]].map fmtComment)) :=
  process_comments_spec.2.2.2.1
    [("comments", Json.arr
      [Json.obj [("author", Json.obj [("displayName", Json.str "Bob")]),
                 ("created", Json.str "2024-01-01"),
                 ("body", Json.str "hi")]])]
    [Json.obj [("author", Json.obj [("displayName", Json.str "Bob")]),
               ("created", Json.str "2024-01-01"),
               ("body", Json.str "hi")]]
    (by decide) (by decide) (by decide)

/-! ### Issue links (C7, C10) and subtasks -/

/-- The key a (well-formed) linked issue or subtask contributes. -/
def linkedKey (v : Json) : Json :=
  match v with
  | .obj fs => (fs.lookup "key").getD (Json.str "Unknown")
  | _ => Json.str "Unknown"

/-- The status name a (well-formed) linked issue or subtask contributes. -/
def linkedStatus (v : Json) : Json :=
  match v with
  | .obj fs =>
    match fs.lookup "fields" with
    | some (.obj ffs) =>
      match ffs.lookup "status" with
      | some (.obj sfs) => (sfs.lookup "name").getD (Json.str "Unknown status")
      | _ => Json.str "Unknown status"
    | _ => Json.str "Unknown status"
  | _ => Json.str "Unknown status"

/-- The summary a (well-formed) linked issue or subtask contributes. -/
def linkedSummary (v : Json) : Json :=
  match v with
  | .obj fs =>
    match fs.lookup "fields" with
    | some (.obj ffs) => (ffs.lookup "summary").getD (Json.str "No summary")
    | _ => Json.str "No summary"
  | _ => Json.str "No summary"

/-- A linked-issue (or subtask) record the loop processes without raising:
a record whose `fields`, when present, is a record whose `status`, when
present, is a record. -/
def wfLinked : Json → Bool
  | .obj fs =>
    (match fs.lookup "fields" with
     | none => true
     | some (.obj ffs) =>
       (match ffs.lookup "status" with
        | none => true
        | some (.obj _) => true
        | some _ => false)
     | some _ => false)
  | _ => false

/-- The link type carries a usable relation name: `type`, when present, is a
record. -/
def wfType (fs : List (String × Json)) : Bool :=
  match fs.lookup "type" with
  | none => true
  | some (.obj _) => true
  | some _ => false

/-- The relation name taken from the link type under `dirKey`, with default
`dflt`. -/
def typeRel (fs : List (String × Json)) (dirKey dflt : String) : Json :=
  match fs.lookup "type" with
  | some (.obj tfs) => (tfs.lookup dirKey).getD (Json.str dflt)
  | _ => Json.str dflt

/-- The output line for one direction of a link. -/
def fmtLine (direction : String) (relation v : Json) : String :=
  direction ++ ": " ++ pyStr relation ++ " " ++ pyStr (linkedKey v) ++ " [" ++
    pyStr (linkedStatus v) ++ "] - " ++ pyStr (linkedSummary v)

/-- A link the loop processes without raising. -/
def wfLink : Json → Bool
  | .obj fs =>
    (match fs.lookup "outwardIssue" with
     | some v => wfType fs && wfLinked v
     | none =>
       match fs.lookup "inwardIssue" with
       | some v => wfType fs && wfLinked v
       | none => true)
  | _ => false

/-- What one link contributes: `none` when it has neither end-pointer. -/
def fmtLink (l : Json) : Option String :=
  match l with
  | .obj fs =>
    match fs.lookup "outwardIssue" with
    | some v => some (fmtLine "outward" (typeRel fs "outward" "relates to") v)
    | none =>
      match fs.lookup "inwardIssue" with
      | some v => some (fmtLine "inward" (typeRel fs "inward" "is related to by") v)
      | none => none
  | _ => none

theorem linkedRef_ok (d : String) (r v : Json) (hv : wfLinked v = true) :
    linkedRef d r v = .ok (fmtLine d r v) := by
  cases v with
  | obj fs =>
    simp only [wfLinked] at hv
    simp only [linkedRef, pyGet, pyContains, fmtLine, linkedKey, linkedStatus,
      linkedSummary, ok_bind]
    cases hlf : fs.lookup "fields" with
    | none => simp [hlf]; rfl
    | some f =>
      cases f with
      | obj ffs =>
        simp only [hlf, Option.isSome_some, if_true, pyGet, ok_bind]
        cases hls : ffs.lookup "status" with
        | none => simp [hls]; rfl
        | some st =>
          cases st <;> simp_all [hls] <;> rfl
      | null => simp_all [hlf]
      | str s => simp_all [hlf]
      | num n => simp_all [hlf]
      | arr es => simp_all [hlf]
  | null => simp [wfLinked] at hv
  | str s => simp [wfLinked] at hv
  | num n => simp [wfLinked] at hv
  | arr es => simp [wfLinked] at hv

theorem outwardBranch_ok (fs : List (String × Json)) (v : Json)
    (hlo : fs.lookup "outwardIssue" = some v)
    (hty : wfType fs = true) (hv : wfLinked v = true) :
    outwardBranch (Json.obj fs) =
      .ok (fmtLine "outward" (typeRel fs "outward" "relates to") v) := by
  simp only [outwardBranch, pyGet, ok_bind]
  cases hlt : fs.lookup "type" with
  | none =>
    simp [hlt, hlo, typeRel, pyGet, ok_bind, linkedRef_ok _ _ _ hv]
  | some t =>
    cases t <;> simp_all [wfType, hlt]
    simp [hlo, hlt, typeRel, pyGet, ok_bind, linkedRef_ok _ _ _ hv]

theorem inwardBranch_ok (fs : List (String × Json)) (v : Json)
    (hli : fs.lookup "inwardIssue" = some v)
    (hty : wfType fs = true) (hv : wfLinked v = true) :
    inwardBranch (Json.obj fs) =
      .ok (fmtLine "inward" (typeRel fs "inward" "is related to by") v) := by
  simp only [inwardBranch, pyGet, ok_bind]
  cases hlt : fs.lookup "type" with
  | none =>
    simp [hlt, hli, typeRel, pyGet, ok_bind, linkedRef_ok _ _ _ hv]
  | some t =>
    cases t <;> simp_all [wfType, hlt]
    simp [hli, hlt, typeRel, pyGet, ok_bind, linkedRef_ok _ _ _ hv]

theorem linkLine_ok (l : Json) (h : wfLink l = true) :
    linkLine l = .ok (fmtLink l) := by
  cases l with
  | obj fs =>
    simp only [wfLink] at h
    simp only [linkLine, pyContains, ok_bind, fmtLink]
    cases hlo : fs.lookup "outwardIssue" with
    | some v =>
      simp only [hlo, Bool.and_eq_true] at h
      obtain ⟨hty, hv⟩ := h
      simp [hlo, outwardBranch_ok fs v hlo hty hv, ok_bind]
    | none =>
      cases hli : fs.lookup "inwardIssue" with
      | some v =>
        simp only [hlo, hli, Bool.and_eq_true] at h
        obtain ⟨hty, hv⟩ := h
        simp [hlo, hli, inwardBranch_ok fs v hli hty hv, ok_bind]
      | none =>
        simp only [hlo, hli]
        rfl
  | null => simp [wfLink] at h
  | str s => simp [wfLink] at h
  | num n => simp [wfLink] at h
  | arr es => simp [wfLink] at h

theorem links_formats_ok (ls : List Json) (hne : ls ≠ [])
    (hwf : ls.all wfLink = true) :
    process_issue_links (Json.arr ls) =
      .ok ("\n".intercalate ((ls.map fmtLink).reduceOption)) := by
  have ht : truthy (Json.arr ls) = true := by
    simp [truthy, List.isEmpty_iff, hne]
  have hmap := exMap_ok linkLine fmtLink ls
    (fun x hx => linkLine_ok x (by
      have := List.all_eq_true.mp hwf x hx
      simpa using this))
  simp only [process_issue_links, ht, Bool.not_true, Bool.false_eq_true, if_false,
    pyIter, ok_bind, hmap]
  rfl

/-- C7: `process_issue_links` yields one line `"<direction>: <relation>
<key> [<status>] - <summary>"` per link, the direction chosen by which
end-pointer is present, silently dropping links with neither pointer; a link
with only `outwardIssue` and relation "blocks" yields a line starting with
`"outward: blocks "`; an empty or absent list yields the empty string. -/
theorem process_issue_links_spec :
    (∀ j : Json, truthy j = false → process_issue_links j = .ok "") ∧
    (∀ ls : List Json, ls ≠ [] → ls.all wfLink = true →
      process_issue_links (Json.arr ls) =
        .ok ("\n".intercalate ((ls.map fmtLink).reduceOption))) ∧
    (∀ fs : List (String × Json), fs.lookup "outwardIssue" = none →
      fs.lookup "inwardIssue" = none → fmtLink (Json.obj fs) = none) ∧
    (process_issue_links (Json.arr
        [Json.obj [("type", Json.obj [("outward", Json.str "blocks")]),
                   ("outwardIssue", Json.obj [("key", Json.str "PROJ-2")])]]) =
      .ok ("outward: blocks " ++ "PROJ-2 [Unknown status] - No summary")) ∧
    (process_issue_links (Json.arr [Json.obj [("id", Json.num 7)]]) = .ok "") := by
  refine ⟨?_, links_formats_ok, ?_, by decide, by decide⟩
  · intro j h
    simp [process_issue_links, h]
  · intro fs ho hi
    simp [fmtLink, ho, hi]

/-- Witness for C7: the formatting clause applied to the one-link list whose
only pointer is `outwardIssue` with relation "blocks". -/
theorem process_issue_links_spec_witness :
    process_issue_links (Json.arr
        [Json.obj [("type", Json.obj [("outward", Json.str "blocks")]),
                   ("outwardIssue", Json.obj [("key", Json.str "PROJ-2")])]]) =
      .ok ("\n".intercalate
        (([Json.obj [("type", Json.obj [("outward", Json.str "blocks")]),
                     ("outwardIssue", Json.obj [("key", Json.str "PROJ-2")])]].map
            fmtLink).reduceOption)) :=
  process_issue_links_spec.2.1
    [Json.obj [("type", Json.obj [("outward", Json.str "blocks")]),
               ("outwardIssue", Json.obj [("key", Json.str "PROJ-2")])]]
    (by decide) (by decide)

/-- C10: when both end-pointers are present the outward pointer wins: the
link is rendered from `outwardIssue` and the type's `outward` name, the
inward pointer is never read, and the link contributes exactly one line.
The two concrete runs differ only in their `inwardIssue` and render
identically. -/
theorem outward_precedence :
    (∀ (fs : List (String × Json)) (v : Json),
      fs.lookup "outwardIssue" = some v → wfType fs = true → wfLinked v = true →
      linkLine (Json.obj fs) =
        .ok (some (fmtLine "outward" (typeRel fs "outward" "relates to") v))) ∧
    (process_issue_links (Json.arr
        [Json.obj [("type", Json.obj [("outward", Json.str "blocks"),
                                      ("inward", Json.str "is blocked by")]),
                   ("outwardIssue", Json.obj [("key", Json.str "K2")]),
                   ("inwardIssue", Json.obj [("key", Json.str "K9")])]]) =
      .ok "outward: blocks K2 [Unknown status] - No summary" ∧
     process_issue_links (Json.arr
        [Json.obj [("type", Json.obj [("outward", Json.str "blocks"),
                                      ("inward", Json.str "is blocked by")]),
                   ("outwardIssue", Json.obj [("key", Json.str "K2")]),
                   ("inwardIssue", Json.obj [("key", Json.str "K-OTHER"),
                                             ("summary", Json.str "noise")])]]) =
      .ok "outward: blocks K2 [Unknown status] - No summary") := by
  refine ⟨?_, by decide, by decide⟩
  intro fs v hlo hty hv
  simp only [linkLine, pyContains, ok_bind, hlo, Option.isSome_some, if_true,
    outwardBranch_ok fs v hlo hty hv]
  rfl

/-- Witness for C10: the outward-precedence clause applied to a concrete link
carrying both pointers. -/
theorem outward_precedence_witness :
    linkLine (Json.obj [("outwardIssue", Json.obj [("key", Json.str "K2")]),
                        ("inwardIssue", Json.obj [("key", Json.str "K9")])]) =
      .ok (some (fmtLine "outward"
        (typeRel [("outwardIssue", Json.obj [("key", Json.str "K2")]),
                  ("inwardIssue", Json.obj [("key", Json.str "K9")])] "outward" "relates to")
        (Json.obj [("key", Json.str "K2")]))) :=
  outward_precedence.1
    [("outwardIssue", Json.obj [("key", Json.str "K2")]),
     ("inwardIssue", Json.obj [("key", Json.str "K9")])]
    (Json.obj [("key", Json.str "K2")]) (by decide) (by decide) (by decide)

/-- The line one (well-formed) subtask contributes. -/
def fmtSubtask (s : Json) : String :=
  pyStr (linkedKey s) ++ " [" ++ pyStr (linkedStatus s) ++ "] - " ++
    pyStr (linkedSummary s)

theorem subtaskLine_ok (s : Json) (hs : wfLinked s = true) :
    subtaskLine s = .ok (fmtSubtask s) := by
  cases s with
  | obj fs =>
    simp only [wfLinked] at hs
    simp only [subtaskLine, pyGet, pyContains, fmtSubtask, linkedKey,
      linkedStatus, linkedSummary, ok_bind]
    cases hlf : fs.lookup "fields" with
    | none => simp [hlf]; rfl
    | some f =>
      cases f with
      | obj ffs =>
        simp only [hlf, Option.isSome_some, if_true, pyGet, ok_bind]
        cases hls : ffs.lookup "status" with
        | none => simp [hls]; rfl
        | some st =>
          cases st <;> simp_all [hls] <;> rfl
      | null => simp_all [hlf]
      | str s => simp_all [hlf]
      | num n => simp_all [hlf]
      | arr es => simp_all [hlf]
  | null => simp [wfLinked] at hs
  | str s => simp [wfLinked] at hs
  | num n => simp [wfLinked] at hs
  | arr es => simp [wfLinked] at hs

theorem subtasks_formats_ok (ss : List Json) (hne : ss ≠ [])
    (hwf : ss.all wfLinked = true) :
    process_subtasks (Json.arr ss) = .ok ("\n".intercalate (ss.map fmtSubtask)) := by
  have ht : truthy (Json.arr ss) = true := by
    simp [truthy, List.isEmpty_iff, hne]
  have hmap := exMap_ok subtaskLine fmtSubtask ss
    (fun x hx => subtaskLine_ok x (by
      have := List.all_eq_true.mp hwf x hx
      simpa using this))
  simp only [process_subtasks, ht, Bool.not_true, Bool.false_eq_true, if_false,
    pyIter, ok_bind, hmap]
  rfl

/-- Inputs a list-shaped normalizer accepts: anything falsy, or a list whose
every element satisfies `p`. -/
def wfListInput (p : Json → Bool) (j : Json) : Bool :=
  if !truthy j then true else
  match j with
  | .arr xs => xs.all p
  | _ => false

/-- Inputs `process_comments` accepts: anything falsy, or a record whose
`comments`, when present and truthy, is a list of well-formed comments. -/
def wfCommentsInput (j : Json) : Bool :=
  if !truthy j then true else
  match j with
  | .obj fs =>
    match fs.lookup "comments" with
    | none => true
    | some v =>
      if !truthy v then true else
      match v with
      | .arr cs => cs.all wfComment
      | _ => false
  | _ => false

theorem listInput_total (p : Json → Bool) (proc : Json → Except String String)
    (hfalsy : ∀ j, truthy j = false → proc j = .ok "")
    (hlist : ∀ xs, xs ≠ [] → xs.all p = true → exceptOk (proc (Json.arr xs)) = true) :
    ∀ j, wfListInput p j = true → exceptOk (proc j) = true := by
  intro j h
  by_cases ht : truthy j = true
  · cases j with
    | arr xs =>
      have hne : xs ≠ [] := by
        intro he; subst he; simp [truthy] at ht
      have hall : xs.all p = true := by
        simpa [wfListInput, ht] using h
      exact hlist xs hne hall
    | null => simp [truthy] at ht
    | str s => simp [wfListInput, ht] at h
    | num n => simp [wfListInput, ht] at h
    | obj fs => simp [wfListInput, ht] at h
  · have ht2 : truthy j = false := by revert ht; cases truthy j <;> simp
    simp [hfalsy j ht2, exceptOk]

theorem comments_total (j : Json) (h : wfCommentsInput j = true) :
    exceptOk (process_comments j) = true := by
  by_cases ht : truthy j = true
  · cases j with
    | obj fs =>
      cases hl : fs.lookup "comments" with
      | none => simp [process_comments, ht, pyGet, hl, ok_bind, truthy, exceptOk]
      | some v =>
        by_cases htv : truthy v = true
        · have harr : ∃ cs, v = Json.arr cs ∧ cs.all wfComment = true := by
            cases v with
            | arr cs =>
              refine ⟨cs, rfl, ?_⟩
              simpa [wfCommentsInput, ht, hl, htv] using h
            | null => simp [truthy] at htv
            | str s => simp [wfCommentsInput, ht, hl, htv] at h
            | num n => simp [wfCommentsInput, ht, hl, htv] at h
            | obj gs => simp [wfCommentsInput, ht, hl, htv] at h
          obtain ⟨cs, rfl, hall⟩ := harr
          have hne : cs ≠ [] := by
            intro he; subst he; simp [truthy] at htv
          rw [comments_formats_ok fs cs hl hne hall]
          rfl
        · have htv2 : truthy v = false := by revert htv; cases truthy v <;> simp
          simp [process_comments, ht, pyGet, hl, ok_bind, htv2, exceptOk]
    | null => simp [truthy] at ht
    | str s => simp [wfCommentsInput, ht] at h
    | num n => simp [wfCommentsInput, ht] at h
    | arr es => simp [wfCommentsInput, ht] at h
  · have ht2 : truthy j = false := by revert ht; cases truthy j <;> simp
    simp [process_comments, ht2, exceptOk]

/-- C5 counterexample: a comment whose `author` is a plain string (not a
record) makes `process_comments` raise `AttributeError` instead of returning
a string — the normalizers are not total on malformed nested input. -/
theorem process_comments_malformed_raises :
    process_comments (Json.obj [("comments", Json.arr
      [Json.obj [("author", Json.str "someone")]])]) = .error "AttributeError" ∧
    exceptOk (process_comments (Json.obj [("comments", Json.arr
      [Json.obj [("author", Json.str "someone")]])])) = false :=
  ⟨by decide, by decide⟩

/-- C5 (amended: total on absent input and on input whose present nested
attributes are structured as expected — records where records are expected,
string names in version lists; a malformed nested value such as a
non-record author raises): each Field Normalizer returns a defined string
on every such input. -/
theorem field_normalizers_total :
    (∀ j, wfCommentsInput j = true → exceptOk (process_comments j) = true) ∧
    (∀ j, wfListInput wfLink j = true → exceptOk (process_issue_links j) = true) ∧
    (∀ j, wfListInput wfLinked j = true → exceptOk (process_subtasks j) = true) ∧
    (∀ j, wfListInput wfVersion j = true → exceptOk (process_fix_versions j) = true) ∧
    (∀ j, wfListInput wfVersion j = true → exceptOk (process__versions j) = true) := by
  refine ⟨comments_total, ?_, ?_, ?_, ?_⟩
  · exact listInput_total wfLink process_issue_links
      (fun j h => by simp [process_issue_links, h])
      (fun xs hne hall => by rw [links_formats_ok xs hne hall]; rfl)
  · exact listInput_total wfLinked process_subtasks
      (fun j h => by simp [process_subtasks, h])
      (fun xs hne hall => by rw [subtasks_formats_ok xs hne hall]; rfl)
  · exact listInput_total wfVersion process_fix_versions
      (fun j h => by simp [process_fix_versions, h])
      (fun xs hne hall => by rw [fix_versions_ok xs hne hall]; rfl)
  · exact listInput_total wfVersion process__versions
      (fun j h => by simp [process__versions, h])
      (fun xs hne hall => by
        have he : process__versions (Json.arr xs) = process_fix_versions (Json.arr xs) := rfl
        rw [he, fix_versions_ok xs hne hall]; rfl)

/-- Witness for C5 (amended): each totality clause applied at a concrete
well-formed input. -/
theorem field_normalizers_total_witness :
    exceptOk (process_comments (Json.obj [("comments", Json.arr
      [Json.obj [("body", Json.str "hi")]])])) = true ∧
    exceptOk (process_issue_links (Json.arr
      [Json.obj [("outwardIssue", Json.obj [])]])) = true ∧
    exceptOk (process_subtasks (Json.arr [Json.obj [("key", Json.str "S-1")]])) = true ∧
    exceptOk (process_fix_versions (Json.arr [Json.obj []])) = true ∧
    exceptOk (process__versions Json.null) = true :=
  ⟨field_normalizers_total.1 _ (by decide),
   field_normalizers_total.2.1 _ (by decide),
   field_normalizers_total.2.2.1 _ (by decide),
   field_normalizers_total.2.2.2.1 _ (by decide),
   field_normalizers_total.2.2.2.2 _ (by decide)⟩

/-- C8: every row the flattener produces has exactly the 26 declared columns
in the §6 order; when every optional field is absent, each column carries
its documented default — in particular Status `""`, Resolution
`"Unresolved"`, Watchers `0` — never an omitted column. -/
theorem flatten_issue_schema :
    (∀ (issue : Json) (row : List (String × Cell)),
      flatten_issue issue = .ok row → row.map Prod.fst = columns) ∧
    flatten_issue (Json.obj []) = .ok
      [("Key", .js (Json.str "")),
       ("Type", .js (Json.str "")),
       ("Summary", .js (Json.str "")),
       ("Description", .js (Json.str "")),
       ("Status", .js (Json.str "")),
       ("Resolution", .js (Json.str "Unresolved")),
       ("Resolution Date", .js (Json.str "")),
       ("Release Note", .js (Json.str "")),
       ("Priority", .js (Json.str "")),
       ("Created", .js (Json.str "")),
       ("Updated", .js (Json.str "")),
       ("Due Date", .js (Json.str "")),
       ("Reporter", .js (Json.str "")),
       ("Assignee", .js (Json.str "")),
       ("Labels", .s ""),
       ("Components", .s ""),
       ("Versions", .s ""),
       ("Fix Versions", .s ""),
       ("Target Version", .js Json.null),
       ("Parent Issue", .js (Json.str "")),
       ("Watchers", .js (Json.num 0)),
       ("Issue Links", .s ""),
       ("Subtasks", .s ""),
       ("Comments", .s ""),
       ("Module-Feature", .js Json.null),
       ("Worklog", .table [])] := by
  constructor
  · intro issue row h
    cases hb : buildRow issue with
    | error e => simp [flatten_issue, hb] at h
    | ok r =>
      have hr : row = processed_issue r := by
        have := h
        simp only [flatten_issue, hb, ok_bind] at this
        exact (Except.ok.inj this).symm
      rw [hr]
      rfl
  · rfl

/-- Witness for C8: the schema clause applied to the all-defaults issue. -/
theorem flatten_issue_schema_witness :
    ∃ row, flatten_issue (Json.obj []) = .ok row ∧ row.map Prod.fst = columns :=
  ⟨_, flatten_issue_schema.2, flatten_issue_schema.1 (Json.obj []) _ flatten_issue_schema.2⟩
